import Mathlib

/-!
Verification of the API-key dashboard core: the key classifier and masker
(`src/lib/utils/apiKeyUtils.js`), the file-backed key store
(`src/lib/fileApiKeyStore.js`), and the HTTP route handlers over the remote
backend with mock fallback (`src/app/api/keys` routes).

JavaScript strings are modelled as Lean `String`; `String.prototype.startsWith`
and `slice`/`substring` are modelled on the underlying character list.
Nondeterministic inputs of the code (UUIDs, random suffixes, clock readings)
are passed in explicitly as parameters.
-/

/-- A stored API-key record, the unit of data of the whole application:
`{ id, name, value, createdAt, updatedAt }`. -/
structure ApiKey where
  id : String
  name : String
  value : String
  createdAt : String
  updatedAt : String
deriving DecidableEq, Repr

/-- Models `value.startsWith(pre)` from JavaScript: the characters of `pre`
are a prefix of the characters of `value`. -/
def jsStartsWith (value pre : String) : Bool :=
  pre.toList.isPrefixOf value.toList

/-- Models `value.slice(0, n)` / `value.substring(0, n)`: the first `n`
characters of `value` (fewer if `value` is shorter). -/
def jsSlice (value : String) (n : Nat) : String :=
  String.mk (value.toList.take n)

/-- `getKeyType` from `apiKeyUtils.js`:
`prod` / `stg` / `dev` by literal prefix, otherwise `custom`. -/
def getKeyType (value : String) : String :=
  if jsStartsWith value "prod_" then "prod"
  else if jsStartsWith value "stg_" then "stg"
  else if jsStartsWith value "dev_" then "dev"
  else "custom"

/-- Models the JavaScript expression `"*".repeat(30)`. -/
def starsThirty : String := String.mk (List.replicate 30 '*')

/-- `maskValue` from `apiKeyUtils.js`: for a recognized type the display
prefix is `type ++ "-"`, for `custom` the first 4 characters of the value;
either way followed by 30 stars. -/
def maskValue (value : String) : String :=
  let ty := getKeyType value
  let pre := if ty = "custom" then jsSlice value 4 else ty ++ "-"
  pre ++ starsThirty

/-- Two character sequences that are not prefixes of one another cannot both
be prefixes of the same value. -/
theorem isPrefixOf_excl {p q v : List Char}
    (hpq : ¬ p <+: q) (hqp : ¬ q <+: p) (hp : p.isPrefixOf v = true) :
    q.isPrefixOf v = false := by
  cases hq : q.isPrefixOf v
  · rfl
  · have hp' : p <+: v := by simpa using hp
    have hq' : q <+: v := by simpa using hq
    rcases List.prefix_or_prefix_of_prefix hp' hq' with h | h
    · exact absurd h hpq
    · exact absurd h hqp

/-- Exclusivity of the classifier's literal prefixes, phrased on strings. -/
theorem jsStartsWith_excl {v p q : String}
    (hpq : ¬ p.toList <+: q.toList) (hqp : ¬ q.toList <+: p.toList)
    (hp : jsStartsWith v p = true) : jsStartsWith v q = false :=
  isPrefixOf_excl hpq hqp hp

/-- C3: `classify` is a total function on strings and is prefix-exact and
case-sensitive: `getKeyType v` is one of the four tags; it is `"prod"` /
`"stg"` / `"dev"` exactly when `v` starts with the literal `prod_` / `stg_` /
`dev_`, and `"custom"` exactly otherwise; in particular
`getKeyType "prod_x" = "prod"`, `getKeyType "prodx" = "custom"` and
`getKeyType "" = "custom"`. -/
theorem classify_total_prefix_exact (v : String) :
    (getKeyType v = "prod" ∨ getKeyType v = "stg" ∨ getKeyType v = "dev" ∨
      getKeyType v = "custom") ∧
    (getKeyType v = "prod" ↔ jsStartsWith v "prod_" = true) ∧
    (getKeyType v = "stg" ↔ jsStartsWith v "stg_" = true) ∧
    (getKeyType v = "dev" ↔ jsStartsWith v "dev_" = true) ∧
    (getKeyType v = "custom" ↔
      (jsStartsWith v "prod_" = false ∧ jsStartsWith v "stg_" = false ∧
        jsStartsWith v "dev_" = false)) ∧
    getKeyType "prod_x" = "prod" ∧ getKeyType "prodx" = "custom" ∧
    getKeyType "" = "custom" := by
  cases hp : jsStartsWith v "prod_" <;> cases hs : jsStartsWith v "stg_" <;>
      cases hd : jsStartsWith v "dev_" <;>
    first
      | (rw [jsStartsWith_excl (by decide) (by decide) hp] at hs
         exact absurd hs (by decide))
      | (rw [jsStartsWith_excl (by decide) (by decide) hp] at hd
         exact absurd hd (by decide))
      | (rw [jsStartsWith_excl (by decide) (by decide) hs] at hd
         exact absurd hd (by decide))
      | (simp only [getKeyType, hp, hs, hd]; decide)

/-- C4: `maskValue v` is a literal display prefix followed by exactly 30
stars; the prefix is `type ++ "-"` for a recognized type and the first 4
characters of `v` for `custom`; the output length is prefix length + 30; the
empty string masks to exactly 30 stars. -/
theorem mask_shape (v : String) :
    maskValue v =
      (if getKeyType v = "custom" then jsSlice v 4 else getKeyType v ++ "-") ++
        starsThirty ∧
    starsThirty = String.mk (List.replicate 30 '*') ∧
    (maskValue v).length =
      (if getKeyType v = "custom" then min 4 v.length else
        (getKeyType v).length + 1) + 30 ∧
    maskValue "" = starsThirty := by
  refine ⟨rfl, rfl, ?_, by decide⟩
  by_cases hc : getKeyType v = "custom"
  · simp only [maskValue, hc, if_pos rfl, String.length_append, if_true]
    have h1 : (jsSlice v 4).length = min 4 v.length := by
      show (v.toList.take 4).length = min 4 v.toList.length
      simp [List.length_take]
    have h2 : starsThirty.length = 30 := by decide
    omega
  · simp only [maskValue, if_neg hc, String.length_append]
    have h2 : starsThirty.length = 30 := by decide
    have h3 : ("-" : String).length = 1 := by decide
    omega

/-- C10: mask noninterference for recognized key types: two values of the
same recognized type (`prod`, `stg` or `dev`) have identical masked
displays, so the mask reveals nothing about the secret beyond its type. -/
theorem mask_noninterference (v₁ v₂ : String)
    (h : getKeyType v₁ = getKeyType v₂)
    (hk : getKeyType v₁ = "prod" ∨ getKeyType v₁ = "stg" ∨
      getKeyType v₁ = "dev") :
    maskValue v₁ = maskValue v₂ := by
  have hne : getKeyType v₁ ≠ "custom" := by
    rcases hk with hk | hk | hk <;> rw [hk] <;> decide
  have hne₂ : getKeyType v₂ ≠ "custom" := by rw [← h]; exact hne
  simp only [maskValue]
  rw [if_neg hne, if_neg hne₂, h]

/-- Witness for C10 at two concrete production keys. -/
theorem mask_noninterference_witness :
    maskValue "prod_aaaa" = maskValue "prod_zzzz" :=
  mask_noninterference "prod_aaaa" "prod_zzzz" (by decide) (Or.inl (by decide))

/-!
The file-backed store (`fileApiKeyStore.js`). The JSON file at the fixed
path is modelled as a `FileData`: `absent` when `fs.access` fails, `invalid`
when its content does not parse as JSON or parses to a non-array value, and
`keys ks` when it holds a JSON array of records. The environment inputs the
code draws at run time (the `crypto.randomUUID` ids and `randomBytes`
suffixes of the three seed records, and the seeding clock reading) are
collected in a `SeedEnv` parameter.
-/

/-- The nondeterministic inputs consumed by `generateSeedApiKeys`. -/
structure SeedEnv where
  prodId : String
  stgId : String
  devId : String
  prodSuffix : String
  stgSuffix : String
  devSuffix : String
  seedNowIso : String
deriving DecidableEq, Repr

/-- State of the JSON data file. -/
inductive FileData where
  | absent : FileData
  | invalid : FileData
  | keys (ks : List ApiKey) : FileData
deriving DecidableEq, Repr

/-- The record list a `FileData` holds (empty for `absent` / `invalid`). -/
def fileKeys : FileData → List ApiKey
  | FileData.keys ks => ks
  | _ => []

/-- `generateMockKeyValue(prefix)`: the simulated prefix, an underscore, and
the random hex suffix drawn from `crypto.randomBytes`. -/
def generateMockKeyValue (pre suffix : String) : String :=
  pre ++ "_" ++ suffix

/-- `generateSeedApiKeys()`: three seed records with values simulating a
production, a staging and a local development key. -/
def generateSeedApiKeys (env : SeedEnv) : List ApiKey :=
  [ { id := env.prodId, name := "Production Key",
      value := generateMockKeyValue "prod" env.prodSuffix,
      createdAt := env.seedNowIso, updatedAt := env.seedNowIso },
    { id := env.stgId, name := "Staging Key",
      value := generateMockKeyValue "stg" env.stgSuffix,
      createdAt := env.seedNowIso, updatedAt := env.seedNowIso },
    { id := env.devId, name := "Local Dev Key",
      value := generateMockKeyValue "dev" env.devSuffix,
      createdAt := env.seedNowIso, updatedAt := env.seedNowIso } ]

/-- `ensureDataFileExists()`: when the file cannot be accessed the seed
records are written; an existing (even unparseable) file is left alone. -/
def ensureDataFileExists (env : SeedEnv) : FileData → FileData
  | FileData.absent => FileData.keys (generateSeedApiKeys env)
  | fd => fd

/-- `readAllApiKeys()`: ensure the file exists, read and parse it; a parsed
nonempty array is returned as is; anything else (parse failure, non-array,
empty array) is replaced by freshly generated seeds which are also written
back. Returns the record list and the resulting file state. -/
def readAllApiKeys (env : SeedEnv) (fd : FileData) : List ApiKey × FileData :=
  match ensureDataFileExists env fd with
  | FileData.keys ks =>
      if 0 < ks.length then (ks, FileData.keys ks)
      else (generateSeedApiKeys env, FileData.keys (generateSeedApiKeys env))
  | _ => (generateSeedApiKeys env, FileData.keys (generateSeedApiKeys env))

/-- `writeAllApiKeys(apiKeys)`: ensure the file exists, then overwrite it
with the full array (the ensure step's effect is always overwritten). -/
def writeAllApiKeys (apiKeys : List ApiKey) (_fd : FileData) : FileData :=
  FileData.keys apiKeys

/-- `getAllApiKeys()`. -/
def getAllApiKeys (env : SeedEnv) (fd : FileData) : List ApiKey × FileData :=
  readAllApiKeys env fd

/-- `getApiKeyById(apiKeyId)`: `all.find(k => k.id === apiKeyId) || null`. -/
def getApiKeyById (env : SeedEnv) (apiKeyId : String) (fd : FileData) :
    Option ApiKey × FileData :=
  let res := readAllApiKeys env fd
  (res.1.find? (fun k => k.id == apiKeyId), res.2)

/-- `createApiKey({name, value})`: read all, append the new record (with a
fresh id and both timestamps set to the same clock reading), write all back,
and return the new record. -/
def createApiKey (env : SeedEnv) (newId nowIso name value : String)
    (fd : FileData) : ApiKey × FileData :=
  let res := readAllApiKeys env fd
  let newKey : ApiKey :=
    { id := newId, name := name, value := value,
      createdAt := nowIso, updatedAt := nowIso }
  (newKey, writeAllApiKeys (res.1 ++ [newKey]) res.2)

/-- The record `updateApiKey` builds from an existing one: a provided string
field replaces the old value, an omitted (or non-string) field is kept, and
`updatedAt` is always set to the current clock reading. -/
def applyUpdate (name? value? : Option String) (nowIso : String)
    (existing : ApiKey) : ApiKey :=
  { existing with
      name := name?.getD existing.name
      value := value?.getD existing.value
      updatedAt := nowIso }

/-- Models `findIndex` + `all[index] = updated` from `updateApiKey`: rewrite
the first record whose id matches, returning the updated record and the new
list, or `none` when no record matches. -/
def setFirstMatch (apiKeyId : String) (f : ApiKey → ApiKey) :
    List ApiKey → Option (ApiKey × List ApiKey)
  | [] => none
  | k :: rest =>
      if k.id == apiKeyId then
        let u := f k
        some (u, u :: rest)
      else
        match setFirstMatch apiKeyId f rest with
        | none => none
        | some (u, rest') => some (u, k :: rest')

/-- `updateApiKey(apiKeyId, {name, value})`: read all, locate the record by
id (`null` when absent), replace only the provided fields, refresh
`updatedAt`, write all back and return the updated record. -/
def updateApiKey (env : SeedEnv) (apiKeyId nowIso : String)
    (name? value? : Option String) (fd : FileData) :
    Option ApiKey × FileData :=
  let res := readAllApiKeys env fd
  match setFirstMatch apiKeyId (applyUpdate name? value? nowIso) res.1 with
  | none => (none, res.2)
  | some (u, all') => (some u, writeAllApiKeys all' res.2)

/-- `deleteApiKey(apiKeyId)`: read all, filter the id out; when nothing was
removed return `false` without writing, otherwise write the filtered array
and return `true`. -/
def deleteApiKey (env : SeedEnv) (apiKeyId : String) (fd : FileData) :
    Bool × FileData :=
  let res := readAllApiKeys env fd
  let next := res.1.filter (fun k => !(k.id == apiKeyId))
  if next.length = res.1.length then (false, res.2)
  else (true, writeAllApiKeys next res.2)

/-!
The HTTP route handlers over the remote backend (`src/app/api/keys` routes in
`page.js`). A row of the remote `api_keys` table carries `created_at` and an
optional `updated_at`; the routes shape it to a client record via
`updated_at ?? created_at`. The outcome of a remote call (client not
configured, query error, returned rows) is passed in as a parameter.
-/

/-- A row of the remote `api_keys` table as selected by the routes. -/
structure DbRow where
  id : String
  name : String
  value : String
  created_at : String
  updated_at : Option String
deriving DecidableEq, Repr

/-- Response shaping used by every route:
`{ id, name, value, createdAt: created_at, updatedAt: updated_at ?? created_at }`. -/
def toClientRecord (r : DbRow) : ApiKey :=
  { id := r.id, name := r.name, value := r.value,
    createdAt := r.created_at,
    updatedAt := r.updated_at.getD r.created_at }

/-- The hardcoded `mockApiKeys` of the collection route. -/
def mockApiKeys : List ApiKey :=
  [ { id := "1", name := "OpenAI API Key", value := "sk-...",
      createdAt := "2024-01-15T10:00:00Z", updatedAt := "2024-01-15T10:00:00Z" },
    { id := "2", name := "Anthropic API Key", value := "sk-ant-...",
      createdAt := "2024-01-14T15:30:00Z", updatedAt := "2024-01-14T15:30:00Z" },
    { id := "3", name := "Google AI API Key", value := "AIza...",
      createdAt := "2024-01-13T09:15:00Z", updatedAt := "2024-01-13T09:15:00Z" } ]

/-- Outcome of the remote list query seen by the collection `GET` route. -/
inductive ListFetch where
  | notConfigured : ListFetch
  | queryError (message : String) : ListFetch
  | thrown : ListFetch
  | rows (rs : List DbRow) : ListFetch
deriving DecidableEq, Repr

/-- Response of the collection `GET` route: status and record list body. -/
structure ListResponse where
  status : Nat
  body : List ApiKey
deriving DecidableEq, Repr

/-- The collection `GET` route: remote rows are shaped and returned; a
missing client, a query error or any thrown exception all fall back to the
mock data with status 200. -/
def routeListGET : ListFetch → ListResponse
  | ListFetch.notConfigured => { status := 200, body := mockApiKeys }
  | ListFetch.queryError _ => { status := 200, body := mockApiKeys }
  | ListFetch.thrown => { status := 200, body := mockApiKeys }
  | ListFetch.rows rs => { status := 200, body := rs.map toClientRecord }

/-- JavaScript falsiness of the optional string fields of a request body:
an absent field or the empty string is falsy. -/
def jsFalsy : Option String → Bool
  | none => true
  | some s => s.isEmpty

/-- Outcome of the remote insert seen by the collection `POST` route. -/
inductive InsertOutcome where
  | notConfigured : InsertOutcome
  | inserted (row : DbRow) : InsertOutcome
  | queryError (message : String) : InsertOutcome
deriving DecidableEq, Repr

/-- Response of the `POST` / item routes: status, optional record body,
optional message body. -/
structure RecordResponse where
  status : Nat
  record? : Option ApiKey
  message? : Option String
deriving DecidableEq, Repr

/-- The collection `POST` route: reject falsy `name`/`value` with 400 before
any backend is consulted; with a configured client return the inserted row
(201) or the query error (500); without a client log and return 201 with a
simulated, non-persisted record whose id is `Date.now().toString()` and
whose value is truncated to `value.substring(0, 10) + "..."`. -/
def routeCreatePOST (name? value? : Option String) (outcome : InsertOutcome)
    (nowMs nowIso : String) : RecordResponse :=
  if jsFalsy name? || jsFalsy value? then
    { status := 400, record? := none,
      message? := some "name and value are required" }
  else
    match outcome with
    | InsertOutcome.inserted row =>
        { status := 201, record? := some (toClientRecord row),
          message? := none }
    | InsertOutcome.queryError msg =>
        { status := 500, record? := none, message? := some msg }
    | InsertOutcome.notConfigured =>
        { status := 201,
          record? := some
            { id := nowMs, name := name?.getD "",
              value := jsSlice (value?.getD "") 10 ++ "...",
              createdAt := nowIso, updatedAt := nowIso },
          message? := none }

/-- The update payload the item `PUT` route sends to the remote backend:
always `updated_at = now`, plus `name` / `value` only when the request body
carries them as strings. -/
structure RemoteUpdates where
  updated_at : String
  nameUpd : Option String
  valueUpd : Option String
deriving DecidableEq, Repr

/-- `PUT` payload construction from the request body. -/
def buildPutUpdates (nowIso : String) (name? value? : Option String) :
    RemoteUpdates :=
  { updated_at := nowIso, nameUpd := name?, valueUpd := value? }

/-- Modelled from the spec: the remote backend (the external database, not
part of this repository) applies an update to the single `api_keys` table —
provided columns replace the old values on every row whose id matches, other
columns are untouched — and returns the updated row, or no row when the id
matches nothing. -/
def remoteApplyUpdate (table : List DbRow) (rowId : String)
    (u : RemoteUpdates) : List DbRow × Option DbRow :=
  let table' := table.map (fun r =>
    if r.id == rowId then
      { r with
          name := u.nameUpd.getD r.name
          value := u.valueUpd.getD r.value
          updated_at := some u.updated_at }
    else r)
  (table', table'.find? (fun r => r.id == rowId))

/-- The item `PUT` route over the modelled remote table: build the update
payload, apply it remotely; a backend error yields 500, an absent row yields
404 `Not found`, and an updated row is shaped and returned with 200. -/
def routeItemPUT (name? value? : Option String) (nowIso : String)
    (dbError? : Option String) (table : List DbRow) (rowId : String) :
    RecordResponse × List DbRow :=
  let u := buildPutUpdates nowIso name? value?
  let res := remoteApplyUpdate table rowId u
  match dbError? with
  | some msg => ({ status := 500, record? := none, message? := some msg }, res.1)
  | none =>
      match res.2 with
      | none =>
          ({ status := 404, record? := none, message? := some "Not found" },
            res.1)
      | some r =>
          ({ status := 200, record? := some (toClientRecord r),
             message? := none }, res.1)

/-- A string starts with any string it literally extends. -/
theorem jsStartsWith_append_self (p s : String) :
    jsStartsWith (p ++ s) p = true := by
  show p.data.isPrefixOf (p ++ s).data = true
  rw [String.data_append]
  simp

/-- A string extending `p` does not start with a `q` incomparable to `p`. -/
theorem jsStartsWith_append_ne (p q s : String)
    (hpq : ¬ p.toList <+: q.toList) (hqp : ¬ q.toList <+: p.toList) :
    jsStartsWith (p ++ s) q = false :=
  jsStartsWith_excl hpq hqp (jsStartsWith_append_self p s)

/-- Any string extending the literal `prod_` classifies as `prod`. -/
theorem getKeyType_prod_val (s : String) :
    getKeyType ("prod_" ++ s) = "prod" := by
  simp only [getKeyType, jsStartsWith_append_self "prod_" s]
  rfl

/-- Any string extending the literal `stg_` classifies as `stg`. -/
theorem getKeyType_stg_val (s : String) :
    getKeyType ("stg_" ++ s) = "stg" := by
  simp only [getKeyType,
    jsStartsWith_append_ne "stg_" "prod_" s (by decide) (by decide),
    jsStartsWith_append_self "stg_" s]
  rfl

/-- Any string extending the literal `dev_` classifies as `dev`. -/
theorem getKeyType_dev_val (s : String) :
    getKeyType ("dev_" ++ s) = "dev" := by
  simp only [getKeyType,
    jsStartsWith_append_ne "dev_" "prod_" s (by decide) (by decide),
    jsStartsWith_append_ne "dev_" "stg_" s (by decide) (by decide),
    jsStartsWith_append_self "dev_" s]
  rfl

/-- C2: `listAll` never fails from the caller's perspective — a missing
client, a remote query error and a thrown exception all produce the mock
data with a 200 success — and the file backend replaces an absent, invalid
(missing/unparseable content) or empty-array file with freshly generated
seed records, written back to the file. -/
theorem listAll_never_fails_autoseeds (env : SeedEnv) (msg : String) :
    routeListGET ListFetch.notConfigured = { status := 200, body := mockApiKeys } ∧
    routeListGET (ListFetch.queryError msg) = { status := 200, body := mockApiKeys } ∧
    routeListGET ListFetch.thrown = { status := 200, body := mockApiKeys } ∧
    readAllApiKeys env FileData.absent =
      (generateSeedApiKeys env, FileData.keys (generateSeedApiKeys env)) ∧
    readAllApiKeys env FileData.invalid =
      (generateSeedApiKeys env, FileData.keys (generateSeedApiKeys env)) ∧
    readAllApiKeys env (FileData.keys []) =
      (generateSeedApiKeys env, FileData.keys (generateSeedApiKeys env)) :=
  ⟨rfl, rfl, rfl, rfl, rfl, rfl⟩

/-- C9: seeding the file store yields exactly 3 records whose values
classify as `prod`, `stg` and `dev` respectively — each value being the
corresponding distinct literal prefix followed by the random suffix. -/
theorem seed_records_classification (env : SeedEnv) :
    (generateSeedApiKeys env).length = 3 ∧
    (generateSeedApiKeys env).map (fun k => getKeyType k.value) =
      ["prod", "stg", "dev"] ∧
    (generateSeedApiKeys env).map ApiKey.value =
      [generateMockKeyValue "prod" env.prodSuffix,
       generateMockKeyValue "stg" env.stgSuffix,
       generateMockKeyValue "dev" env.devSuffix] := by
  have e1 : generateMockKeyValue "prod" env.prodSuffix =
      "prod_" ++ env.prodSuffix := by
    show ("prod" ++ "_") ++ env.prodSuffix = "prod_" ++ env.prodSuffix
    rw [(by decide : ("prod" ++ "_" : String) = "prod_")]
  have e2 : generateMockKeyValue "stg" env.stgSuffix =
      "stg_" ++ env.stgSuffix := by
    show ("stg" ++ "_") ++ env.stgSuffix = "stg_" ++ env.stgSuffix
    rw [(by decide : ("stg" ++ "_" : String) = "stg_")]
  have e3 : generateMockKeyValue "dev" env.devSuffix =
      "dev_" ++ env.devSuffix := by
    show ("dev" ++ "_") ++ env.devSuffix = "dev_" ++ env.devSuffix
    rw [(by decide : ("dev" ++ "_" : String) = "dev_")]
  refine ⟨rfl, ?_, rfl⟩
  simp [generateSeedApiKeys, e1, e2, e3, getKeyType_prod_val,
    getKeyType_stg_val, getKeyType_dev_val]

/-- Reading always leaves the file holding exactly the returned list. -/
theorem readAll_snd (env : SeedEnv) (fd : FileData) :
    (readAllApiKeys env fd).2 = FileData.keys (readAllApiKeys env fd).1 := by
  cases fd with
  | absent => rfl
  | invalid => rfl
  | keys ks =>
      by_cases h : 0 < ks.length
      · simp [readAllApiKeys, ensureDataFileExists, h]
      · simp [readAllApiKeys, ensureDataFileExists, h]

/-- Reading never returns an empty list (an empty store is re-seeded). -/
theorem readAll_pos (env : SeedEnv) (fd : FileData) :
    0 < (readAllApiKeys env fd).1.length := by
  cases fd with
  | absent => simp [readAllApiKeys, ensureDataFileExists, generateSeedApiKeys]
  | invalid => simp [readAllApiKeys, ensureDataFileExists, generateSeedApiKeys]
  | keys ks =>
      by_cases h : 0 < ks.length
      · simp [readAllApiKeys, ensureDataFileExists, h]
      · simp [readAllApiKeys, ensureDataFileExists, h, generateSeedApiKeys]

/-- Reading a file holding a nonempty record array returns it unchanged. -/
theorem readAll_keys_pos (env : SeedEnv) (ks : List ApiKey)
    (h : 0 < ks.length) :
    readAllApiKeys env (FileData.keys ks) = (ks, FileData.keys ks) := by
  simp [readAllApiKeys, ensureDataFileExists, h]

/-- `find?` on a list ending in the only matching element returns it. -/
theorem find?_append_singleton (p : ApiKey → Bool) (l : List ApiKey)
    (a : ApiKey) (h : ∀ x ∈ l, ¬ p x) (ha : p a) :
    (l ++ [a]).find? p = some a := by
  rw [List.find?_append]
  have h1 : l.find? p = none := List.find?_eq_none.mpr h
  simp [h1, List.find?, ha]

/-- C5: round-trip — the record returned by `createApiKey` carries the given
`name` and `value` with identical creation and update timestamps, and
`getApiKeyById` on the returned id over the resulting store finds exactly
that record (given that the freshly drawn UUID collides with no stored id
and the inputs are non-empty). -/
theorem create_getById_roundtrip (env : SeedEnv)
    (newId nowIso name value : String) (fd : FileData)
    (_hname : name ≠ "") (_hvalue : value ≠ "")
    (hfresh : ∀ k ∈ (readAllApiKeys env fd).1, k.id ≠ newId) :
    (createApiKey env newId nowIso name value fd).1.name = name ∧
    (createApiKey env newId nowIso name value fd).1.value = value ∧
    (createApiKey env newId nowIso name value fd).1.createdAt =
      (createApiKey env newId nowIso name value fd).1.updatedAt ∧
    (getApiKeyById env (createApiKey env newId nowIso name value fd).1.id
        (createApiKey env newId nowIso name value fd).2).1 =
      some (createApiKey env newId nowIso name value fd).1 := by
  refine ⟨rfl, rfl, rfl, ?_⟩
  have hlen : 0 < ((readAllApiKeys env fd).1 ++
      [({ id := newId, name := name, value := value, createdAt := nowIso,
          updatedAt := nowIso } : ApiKey)]).length := by
    simp
  have hread := readAll_keys_pos env _ hlen
  show ((readAllApiKeys env (FileData.keys _)).1.find? _, _).1 = _
  rw [hread]
  exact find?_append_singleton _ _ _
    (fun x hx => by simpa using hfresh x hx) (by simp [createApiKey])

/-- Concrete environment used by the witnesses: fixed draws for the seed
ids, seed suffixes and the seeding clock. -/
def envW : SeedEnv :=
  { prodId := "seed-id-1", stgId := "seed-id-2", devId := "seed-id-3",
    prodSuffix := "aa", stgSuffix := "bb", devSuffix := "cc",
    seedNowIso := "2024-01-01T00:00:00Z" }

/-- Concrete nonempty file state used by the witnesses. -/
def fdW : FileData :=
  FileData.keys
    [ { id := "existing-id", name := "Old", value := "v0",
        createdAt := "t0", updatedAt := "t0" } ]

/-- Witness for C5 at a concrete store, name, value and fresh id. -/
theorem create_getById_roundtrip_witness :
    (createApiKey envW "new-id" "T1" "K1" "prod_abc" fdW).1.name = "K1" ∧
    (createApiKey envW "new-id" "T1" "K1" "prod_abc" fdW).1.value =
      "prod_abc" ∧
    (createApiKey envW "new-id" "T1" "K1" "prod_abc" fdW).1.createdAt =
      (createApiKey envW "new-id" "T1" "K1" "prod_abc" fdW).1.updatedAt ∧
    (getApiKeyById envW
        (createApiKey envW "new-id" "T1" "K1" "prod_abc" fdW).1.id
        (createApiKey envW "new-id" "T1" "K1" "prod_abc" fdW).2).1 =
      some (createApiKey envW "new-id" "T1" "K1" "prod_abc" fdW).1 :=
  create_getById_roundtrip envW "new-id" "T1" "K1" "prod_abc" fdW
    (by decide) (by decide) (by decide)

/-- `setFirstMatch` misses exactly when no record carries the id. -/
theorem setFirstMatch_none_iff (apiKeyId : String) (f : ApiKey → ApiKey)
    (l : List ApiKey) :
    setFirstMatch apiKeyId f l = none ↔ ∀ k ∈ l, k.id ≠ apiKeyId := by
  induction l with
  | nil => simp [setFirstMatch]
  | cons x xs ih =>
      cases hx : (x.id == apiKeyId) with
      | true =>
          have hxid : x.id = apiKeyId := by simpa using hx
          simp [setFirstMatch, hx, hxid]
      | false =>
          have hxid : x.id ≠ apiKeyId := by simpa using hx
          cases hrec : setFirstMatch apiKeyId f xs with
          | none =>
              simp [setFirstMatch, hx, hrec, hxid]
              exact fun a ha => ih.mp hrec a ha
          | some p =>
              have hne : ¬ ∀ k ∈ xs, k.id ≠ apiKeyId := by
                intro hall
                rw [ih.mpr hall] at hrec
                cases hrec
              simp only [setFirstMatch, hx, hrec]
              constructor
              · intro h; cases h
              · intro hall
                exact absurd (fun k hk => hall k (by simp [hk])) hne

/-- A hit of `setFirstMatch` comes from a stored record with the id, and the
returned record is the rewrite of that record. -/
theorem setFirstMatch_some (apiKeyId : String) (f : ApiKey → ApiKey) :
    ∀ (l : List ApiKey) (u : ApiKey) (l' : List ApiKey),
      setFirstMatch apiKeyId f l = some (u, l') →
      ∃ k, k ∈ l ∧ k.id = apiKeyId ∧ u = f k := by
  intro l
  induction l with
  | nil => intro u l' h; simp [setFirstMatch] at h
  | cons x xs ih =>
      intro u l' h
      cases hx : (x.id == apiKeyId) with
      | true =>
          have hxid : x.id = apiKeyId := by simpa using hx
          simp [setFirstMatch, hx] at h
          exact ⟨x, by simp, hxid, h.1.symm⟩
      | false =>
          simp only [setFirstMatch, hx] at h
          cases hrec : setFirstMatch apiKeyId f xs with
          | none => rw [hrec] at h; simp at h
          | some p =>
              obtain ⟨u', rest'⟩ := p
              rw [hrec] at h
              simp at h
              obtain ⟨k, hk, hkid, hku⟩ := ih u' rest' hrec
              exact ⟨k, by simp [hk], hkid, by rw [← h.1]; exact hku⟩

/-- The remote update never changes a row's id. -/
theorem remoteUpdatedRow_id (rowId : String) (u : RemoteUpdates) (r : DbRow) :
    (if r.id == rowId then
        ({ r with
            name := u.nameUpd.getD r.name
            value := u.valueUpd.getD r.value
            updated_at := some u.updated_at } : DbRow)
      else r).id = r.id := by
  by_cases h : r.id == rowId <;> simp [h]

/-- C6: `update` replaces only the provided fields — an omitted `name` or
`value` keeps its prior value — always refreshes `updatedAt` to the current
clock reading, and a missing id yields an absent result (`null` from the
file store, a `Not found` response rather than an error from the remote
route), in both the file-backed and the remote-backed path. -/
theorem update_partial_field_semantics (env : SeedEnv)
    (apiKeyId nowIso : String) (name? value? : Option String) (fd : FileData)
    (table : List DbRow) :
    ((updateApiKey env apiKeyId nowIso name? value? fd).1 = none ↔
      ∀ k ∈ (readAllApiKeys env fd).1, k.id ≠ apiKeyId) ∧
    (∀ u, (updateApiKey env apiKeyId nowIso name? value? fd).1 = some u →
      ∃ k, k ∈ (readAllApiKeys env fd).1 ∧ k.id = apiKeyId ∧
        u.id = k.id ∧ u.name = name?.getD k.name ∧
        u.value = value?.getD k.value ∧ u.createdAt = k.createdAt ∧
        u.updatedAt = nowIso) ∧
    (buildPutUpdates nowIso name? value? =
      { updated_at := nowIso, nameUpd := name?, valueUpd := value? }) ∧
    ((∀ r ∈ table, r.id ≠ apiKeyId) →
      (routeItemPUT name? value? nowIso none table apiKeyId).1 =
        { status := 404, record? := none, message? := some "Not found" }) ∧
    (∀ rec, (routeItemPUT name? value? nowIso none table apiKeyId).1.record? =
        some rec →
      ∃ r, r ∈ table ∧ r.id = apiKeyId ∧ rec.name = name?.getD r.name ∧
        rec.value = value?.getD r.value ∧ rec.createdAt = r.created_at ∧
        rec.updatedAt = nowIso) := by
  refine ⟨?_, ?_, rfl, ?_, ?_⟩
  · constructor
    · intro h
      apply (setFirstMatch_none_iff apiKeyId
        (applyUpdate name? value? nowIso) (readAllApiKeys env fd).1).mp
      cases hrec : setFirstMatch apiKeyId (applyUpdate name? value? nowIso)
          (readAllApiKeys env fd).1 with
      | none => rfl
      | some p =>
          obtain ⟨u, all'⟩ := p
          simp [updateApiKey, hrec] at h
    · intro h
      have hnone := (setFirstMatch_none_iff apiKeyId
        (applyUpdate name? value? nowIso) (readAllApiKeys env fd).1).mpr h
      simp [updateApiKey, hnone]
  · intro u hu
    cases hrec : setFirstMatch apiKeyId (applyUpdate name? value? nowIso)
        (readAllApiKeys env fd).1 with
    | none => simp [updateApiKey, hrec] at hu
    | some p =>
        obtain ⟨u', all'⟩ := p
        simp [updateApiKey, hrec] at hu
        obtain ⟨k, hk, hkid, hku⟩ :=
          setFirstMatch_some apiKeyId (applyUpdate name? value? nowIso)
            (readAllApiKeys env fd).1 u' all' hrec
        subst hu
        exact ⟨k, hk, hkid, by simp [hku, applyUpdate],
          by simp [hku, applyUpdate], by simp [hku, applyUpdate],
          by simp [hku, applyUpdate], by simp [hku, applyUpdate]⟩
  · intro h
    have hfind : ((remoteApplyUpdate table apiKeyId
        (buildPutUpdates nowIso name? value?)).2 = none) := by
      apply List.find?_eq_none.mpr
      intro r' hr'
      simp only [remoteApplyUpdate] at hr'
      obtain ⟨r, hr, hmap⟩ := List.mem_map.mp hr'
      have : r'.id = r.id := by rw [← hmap]; exact remoteUpdatedRow_id _ _ _
      simp [this, h r hr]
    simp [routeItemPUT, hfind]
  · intro rec hrec
    cases hfind : (remoteApplyUpdate table apiKeyId
        (buildPutUpdates nowIso name? value?)).2 with
    | none => simp [routeItemPUT, hfind] at hrec
    | some r' =>
        have hfind' : ((remoteApplyUpdate table apiKeyId
            (buildPutUpdates nowIso name? value?)).1).find?
              (fun r => r.id == apiKeyId) = some r' := hfind
        have hpred := List.find?_some hfind'
        have hmem := List.mem_of_find?_eq_some hfind'
        simp only [remoteApplyUpdate] at hmem
        obtain ⟨r, hr, hmap⟩ := List.mem_map.mp hmem
        have hrid : r.id = apiKeyId := by
          have : r'.id = r.id := by rw [← hmap]; exact remoteUpdatedRow_id _ _ _
          rw [← this]; simpa using hpred
        have hrec' : rec = toClientRecord r' := by
          simp [routeItemPUT, hfind] at hrec
          exact hrec.symm
      
        subst hrec'
        refine ⟨r, hr, hrid, ?_, ?_, ?_, ?_⟩ <;>
          · rw [← hmap]
            simp [toClientRecord, buildPutUpdates, hrid]

/-- C7: `delete` returns `true` exactly when a record with the id existed
(and was removed): a missing id gives `false`, no error, and leaves the
collection size unchanged; a present id gives `true` and a subsequent
`getApiKeyById` is absent. (The freshness hypothesis keeps the seed ids a
potential re-seed would draw distinct from the deleted id.) -/
theorem delete_boolean_semantics (env : SeedEnv) (apiKeyId : String)
    (fd : FileData)
    (hseed : ∀ k ∈ generateSeedApiKeys env, k.id ≠ apiKeyId) :
    ((deleteApiKey env apiKeyId fd).1 = false ↔
      ∀ k ∈ (readAllApiKeys env fd).1, k.id ≠ apiKeyId) ∧
    ((deleteApiKey env apiKeyId fd).1 = false →
      (deleteApiKey env apiKeyId fd).2 = (readAllApiKeys env fd).2 ∧
      (getAllApiKeys env (deleteApiKey env apiKeyId fd).2).1.length =
        (readAllApiKeys env fd).1.length) ∧
    ((deleteApiKey env apiKeyId fd).1 = true →
      (getApiKeyById env apiKeyId (deleteApiKey env apiKeyId fd).2).1 =
        none) := by
  have hfilter : ∀ k ∈ (readAllApiKeys env fd).1.filter
      (fun k => !(k.id == apiKeyId)), (k.id == apiKeyId) = false := by
    intro k hk
    have := List.of_mem_filter hk
    simpa using this
  by_cases hlen : ((readAllApiKeys env fd).1.filter
      (fun k => !(k.id == apiKeyId))).length = (readAllApiKeys env fd).1.length
  · have heq : (readAllApiKeys env fd).1.filter
        (fun k => !(k.id == apiKeyId)) = (readAllApiKeys env fd).1 :=
      List.Sublist.eq_of_length (List.filter_sublist _) hlen
    have hall : ∀ k ∈ (readAllApiKeys env fd).1, k.id ≠ apiKeyId := by
      intro k hk
      have := List.filter_eq_self.mp heq k hk
      simpa using this
    refine ⟨?_, ?_, ?_⟩
    · simp only [deleteApiKey, if_pos hlen]
      exact ⟨fun _ => hall, fun _ => trivial⟩
    · intro _
      constructor
      · simp only [deleteApiKey, if_pos hlen]
      · simp only [deleteApiKey, if_pos hlen, getAllApiKeys]
        rw [readAll_snd env fd, readAll_keys_pos env _ (readAll_pos env fd)]
    · intro h
      simp only [deleteApiKey, if_pos hlen] at h
      cases h
  · refine ⟨?_, ?_, ?_⟩
    · simp only [deleteApiKey, if_neg hlen]
      constructor
      · intro h; cases h
      · intro hall
        exfalso
        apply hlen
        rw [List.filter_eq_self.mpr]
        intro k hk
        simpa using hall k hk
    · intro h
      simp only [deleteApiKey, if_neg hlen] at h
      cases h
    · intro _
      simp only [deleteApiKey, if_neg hlen, getApiKeyById, writeAllApiKeys]
      by_cases hpos : 0 < ((readAllApiKeys env fd).1.filter
          (fun k => !(k.id == apiKeyId))).length
      · rw [readAll_keys_pos env _ hpos]
        simp only []
        apply List.find?_eq_none.mpr
        intro k hk
        simp [hfilter k hk]
      · have hnil : (readAllApiKeys env fd).1.filter
            (fun k => !(k.id == apiKeyId)) = [] := by
          cases hf : (readAllApiKeys env fd).1.filter
              (fun k => !(k.id == apiKeyId)) with
          | nil => rfl
          | cons a l => rw [hf] at hpos; simp at hpos
        rw [hnil]
        show (generateSeedApiKeys env).find? (fun k => k.id == apiKeyId) =
          none
        apply List.find?_eq_none.mpr
        intro k hk
        simp [hseed k hk]

/-- Witness for C7 at a concrete store holding the deleted id. -/
theorem delete_boolean_semantics_witness :
    ((deleteApiKey envW "existing-id" fdW).1 = false ↔
      ∀ k ∈ (readAllApiKeys envW fdW).1, k.id ≠ "existing-id") ∧
    ((deleteApiKey envW "existing-id" fdW).1 = false →
      (deleteApiKey envW "existing-id" fdW).2 =
        (readAllApiKeys envW fdW).2 ∧
      (getAllApiKeys envW (deleteApiKey envW "existing-id" fdW).2).1.length =
        (readAllApiKeys envW fdW).1.length) ∧
    ((deleteApiKey envW "existing-id" fdW).1 = true →
      (getApiKeyById envW "existing-id"
          (deleteApiKey envW "existing-id" fdW).2).1 = none) :=
  delete_boolean_semantics envW "existing-id" fdW (by decide)

/-- A concrete remote row used by the witnesses. -/
def rowW : DbRow :=
  { id := "r1", name := "Remote", value := "prod_r",
    created_at := "2024-02-02T00:00:00Z", updated_at := none }

/-- C8: `create` rejects an empty or absent `name` or `value` with a 400
validation failure carrying no record, and does so identically for every
backend state and clock reading — i.e. before any backend write could be
attempted. -/
theorem create_validation_rejects (name? value? : Option String)
    (outcome outcome' : InsertOutcome) (nowMs nowIso nowMs' nowIso' : String)
    (h : jsFalsy name? = true ∨ jsFalsy value? = true) :
    routeCreatePOST name? value? outcome nowMs nowIso =
      { status := 400, record? := none,
        message? := some "name and value are required" } ∧
    routeCreatePOST name? value? outcome nowMs nowIso =
      routeCreatePOST name? value? outcome' nowMs' nowIso' := by
  have hcond : (jsFalsy name? || jsFalsy value?) = true := by
    rcases h with h | h <;> simp [h]
  constructor <;> simp [routeCreatePOST, hcond]

/-- Witness for C8: both the empty-name and the empty-value create are
rejected with 400 and no record. -/
theorem create_validation_rejects_witness :
    routeCreatePOST (some "") (some "v") InsertOutcome.notConfigured
        "1" "T" =
      { status := 400, record? := none,
        message? := some "name and value are required" } ∧
    routeCreatePOST (some "n") (some "") (InsertOutcome.inserted rowW)
        "1" "T" =
      { status := 400, record? := none,
        message? := some "name and value are required" } :=
  ⟨(create_validation_rejects (some "") (some "v")
      InsertOutcome.notConfigured InsertOutcome.notConfigured
      "1" "T" "1" "T" (Or.inl (by decide))).1,
   (create_validation_rejects (some "n") (some "")
      (InsertOutcome.inserted rowW) (InsertOutcome.inserted rowW)
      "1" "T" "1" "T" (Or.inr (by decide))).1⟩

/-- Counterexample to C1: with the remote backend not configured, the
collection `POST` route reports success (201) with a record, yet that
record is stored nowhere — a subsequent list returns only the mock data,
which does not contain it — and its `value` is not even the submitted
secret but a truncation. -/
theorem create_fallback_not_persisted :
    (routeCreatePOST (some "My Key") (some "prod_secret_value")
        InsertOutcome.notConfigured "1700000000000"
        "2026-01-01T00:00:00Z").status = 201 ∧
    (routeCreatePOST (some "My Key") (some "prod_secret_value")
        InsertOutcome.notConfigured "1700000000000"
        "2026-01-01T00:00:00Z").record? =
      some { id := "1700000000000", name := "My Key",
             value := "prod_secre...",
             createdAt := "2026-01-01T00:00:00Z",
             updatedAt := "2026-01-01T00:00:00Z" } ∧
    ({ id := "1700000000000", name := "My Key", value := "prod_secre...",
       createdAt := "2026-01-01T00:00:00Z",
       updatedAt := "2026-01-01T00:00:00Z" } : ApiKey) ∉
      (routeListGET ListFetch.notConfigured).body ∧
    ("prod_secre..." : String) ≠ "prod_secret_value" := by
  refine ⟨rfl, ?_, by decide, by decide⟩
  decide

/-- C1 amended: the file-backed `createApiKey` stores the returned record
in the written file before returning, and the remote-backed `POST` path
returns success (201) only when the insert succeeded, carrying exactly the
row the backend stored; but in the unconfigured fallback path `POST`
returns 201 with a simulated record (id drawn from the clock, value
truncated to its first 10 characters plus `"..."`) that is not persisted. -/
theorem create_persistence_amended (env : SeedEnv)
    (newId nowIso name value : String) (fd : FileData)
    (name? value? : Option String) (row : DbRow) (msg nowMs : String) :
    (createApiKey env newId nowIso name value fd).1 ∈
      fileKeys ((createApiKey env newId nowIso name value fd).2) ∧
    ((routeCreatePOST name? value? (InsertOutcome.inserted row)
        nowMs nowIso).status = 201 →
      (routeCreatePOST name? value? (InsertOutcome.inserted row)
          nowMs nowIso).record? = some (toClientRecord row)) ∧
    (routeCreatePOST name? value? (InsertOutcome.queryError msg)
        nowMs nowIso).status ≠ 201 ∧
    ((routeCreatePOST name? value? InsertOutcome.notConfigured
        nowMs nowIso).status = 201 →
      (routeCreatePOST name? value? InsertOutcome.notConfigured
          nowMs nowIso).record? =
        some { id := nowMs, name := name?.getD "",
               value := jsSlice (value?.getD "") 10 ++ "...",
               createdAt := nowIso, updatedAt := nowIso }) := by
  refine ⟨?_, ?_, ?_, ?_⟩
  · simp [createApiKey, writeAllApiKeys, fileKeys]
  · by_cases hcond : (jsFalsy name? || jsFalsy value?) = true <;>
      simp [routeCreatePOST, hcond]
  · by_cases hcond : (jsFalsy name? || jsFalsy value?) = true <;>
      simp [routeCreatePOST, hcond]
  · by_cases hcond : (jsFalsy name? || jsFalsy value?) = true <;>
      simp [routeCreatePOST, hcond]
